import Mathlib

/-!
Shallow embedding of the habit-tracker backend (src/backend/main.py).

Dates are modelled as integers (day ordinals), so the Python expression
`(d2 - d1).days` becomes plain integer subtraction.  Python floats
(weight, target_hours, hours) are modelled as rationals; the float
division `hours / target_hours` raises `ZeroDivisionError` in Python when
the divisor is zero, which we model with an explicit error value.
The in-memory database holds the three sqlite tables as lists, together
with the next auto-increment primary key of each table.  Every endpoint
body runs inside `try ... except Exception as e: raise
HTTPException(status_code=500, detail=str(e))`, modelled by `wrapEndpoint`.
-/

namespace HabitTracker

/-- A row of the `sprints` table. -/
structure Sprint where
  id : Nat
  name : String
  start_date : Int
  end_date : Int
  created_at : Nat
deriving Repr, DecidableEq

/-- A row of the `habits` table. -/
structure Habit where
  id : Nat
  sprint_id : Nat
  name : String
  weight : ℚ
  target_hours : ℚ
deriving Repr, DecidableEq

/-- A row of the `effort_logs` table. -/
structure EffortLog where
  id : Nat
  habit_id : Nat
  date : Int
  hours : ℚ
  created_at : Nat
deriving Repr, DecidableEq

/-- The sqlite database: three tables plus their auto-increment counters. -/
structure DB where
  sprints : List Sprint
  habits : List Habit
  effort_logs : List EffortLog
  next_sprint_id : Nat
  next_habit_id : Nat
  next_effort_id : Nat
deriving Repr, DecidableEq

/-- The exceptions an endpoint body can raise before the catch-all:
`HTTPException(status, detail)` and Python's `ZeroDivisionError`. -/
inductive ApiException where
  | http (status_code : Nat) (detail : String)
  | zeroDivision
deriving Repr, DecidableEq

/-- The text `str(e)` of each exception: Starlette renders `HTTPException` as
`"{status_code}: {detail}"` (braces here are format placeholders in the
Python source, written textually: \x7bstatus_code\x7d), and
`ZeroDivisionError` for floats renders as "float division by zero". -/
def ApiException.message : ApiException → String
  | .http s d => toString s ++ ": " ++ d
  | .zeroDivision => "float division by zero"

/-- The response FastAPI sends for an uncaught `HTTPException`. -/
structure HTTPError where
  status_code : Nat
  detail : String
deriving Repr, DecidableEq

/-- The catch-all `except Exception as e: raise HTTPException(500, str(e))`
wrapped around every endpoint body. -/
def wrapEndpoint {α : Type} (r : Except ApiException α) : Except HTTPError α :=
  match r with
  | .ok v => .ok v
  | .error e => .error ⟨500, e.message⟩

/-- Request model `HabitCreate`. -/
structure HabitCreate where
  name : String
  weight : ℚ
  target_hours : ℚ
deriving Repr, DecidableEq

/-- Request model `SprintCreate`. -/
structure SprintCreate where
  name : String
  start_date : Int
  end_date : Int
  habits : List HabitCreate
deriving Repr, DecidableEq

/-- Request model `EffortCreate`. -/
structure EffortCreate where
  habit_id : Nat
  date : Int
  hours : ℚ
deriving Repr, DecidableEq

/-- Python-dict insertion on a `name -> id` association list: overwrite the
value in place if the key exists, else append. -/
def dictInsert (d : List (String × Nat)) (k : String) (v : Nat) :
    List (String × Nat) :=
  if d.any (fun p => p.1 = k) then
    d.map (fun p => if p.1 = k then (k, v) else p)
  else d ++ [(k, v)]

/-- Dict lookup: value of the first (hence unique) entry with the key. -/
def dictGet (d : List (String × Nat)) (k : String) : Option Nat :=
  (d.find? (fun p => p.1 = k)).map (fun p => p.2)

/-- Result of `POST /api/sprints`. -/
structure CreateSprintResult where
  sprint_id : Nat
  habit_ids : List (String × Nat)
deriving Repr, DecidableEq

/-- One iteration of the habit-insertion loop in `create_sprint` (lines
110-118): insert the habit row linked to the sprint and record its id in
the `habit_ids` dict. -/
def createStep (sprint_id : Nat) (acc : List (String × Nat) × DB)
    (hc : HabitCreate) : List (String × Nat) × DB :=
  let hid := acc.2.next_habit_id
  (dictInsert acc.1 hc.name hid,
   { acc.2 with
     habits := acc.2.habits ++ [⟨hid, sprint_id, hc.name, hc.weight, hc.target_hours⟩],
     next_habit_id := hid + 1 })

/-- The endpoint `create_sprint` (lines 96-122): insert the sprint row, then one habit
row per submitted habit specification, building the `habit_ids` dict. -/
def create_sprint (db : DB) (s : SprintCreate) : CreateSprintResult × DB :=
  let sprint_id := db.next_sprint_id
  let db1 : DB :=
    { db with
      sprints := db.sprints ++ [⟨sprint_id, s.name, s.start_date, s.end_date, 0⟩],
      next_sprint_id := sprint_id + 1 }
  let r := s.habits.foldl (createStep sprint_id) ([], db1)
  (⟨sprint_id, r.1⟩, r.2)

/-- A row of the SQL join in `get_sprint` (lines 143-149): each effort log
joined with its habit's weight and target hours, restricted to habits of
the requested sprint. -/
structure JoinedEffort where
  date : Int
  hours : ℚ
  habit_id : Nat
  weight : ℚ
  target_hours : ℚ
deriving Repr, DecidableEq

/-- The join `effort_logs e JOIN habits h ON e.habit_id = h.id WHERE
h.sprint_id = sprint_id`. -/
def joinEfforts (db : DB) (sprint_id : Nat) : List JoinedEffort :=
  db.effort_logs.filterMap (fun e =>
    match db.habits.find? (fun h => h.id = e.habit_id) with
    | some h =>
        if h.sprint_id = sprint_id then
          some ⟨e.date, e.hours, e.habit_id, h.weight, h.target_hours⟩
        else none
    | none => none)

/-- One iteration of the scoring loop (lines 152-160): compute the day
index, silently skip out-of-range logs, divide by `target_hours` (raising
`ZeroDivisionError` when it is 0), and add the score into the day's slot,
starting it from the score itself when the slot is still `None`. -/
def applyEffort (start : Int) (days_count : Int) (days : List (Option ℚ))
    (e : JoinedEffort) : Except ApiException (List (Option ℚ)) :=
  let day_index := e.date - start
  if 0 ≤ day_index ∧ day_index < days_count then
    if e.target_hours = 0 then .error .zeroDivision
    else
      let progress := min (e.hours / e.target_hours) 1
      let score := progress * e.weight
      match days[day_index.toNat]? with
      | some none => .ok (days.set day_index.toNat (some score))
      | some (some v) => .ok (days.set day_index.toNat (some (v + score)))
      | none => .ok days
  else .ok days

/-- Response of `GET /api/sprints/\x7bsprint_id\x7d`. -/
structure SprintResponse where
  id : Nat
  name : String
  start_date : Int
  end_date : Int
  habits : List Habit
  days : List (Option ℚ)
deriving Repr, DecidableEq

/-- The count `days_count = (end_date - start_date).days + 1` (line 139). -/
def daysCount (s : Sprint) : Int := (s.end_date - s.start_date) + 1

/-- Body of `get_sprint` (lines 126-169) before the catch-all: fetch the
sprint (404 if absent), fetch its habits, allocate the days array
(`[None] * days_count`, empty when the count is not positive), run the
scoring loop over the joined effort logs, and assemble the response. -/
def get_sprint_inner (db : DB) (sprint_id : Nat) :
    Except ApiException SprintResponse :=
  match db.sprints.find? (fun s => s.id = sprint_id) with
  | none => .error (.http 404 "Sprint not found")
  | some sprint =>
    let sprint_habits := db.habits.filter (fun h => decide (h.sprint_id = sprint_id))
    let days_count : Int := daysCount sprint
    let days0 : List (Option ℚ) := List.replicate days_count.toNat none
    let efforts := joinEfforts db sprint_id
    match efforts.foldlM (applyEffort sprint.start_date days_count) days0 with
    | .error e => .error e
    | .ok days =>
        .ok ⟨sprint.id, sprint.name, sprint.start_date, sprint.end_date,
             sprint_habits, days⟩

/-- The endpoint `GET /api/sprints/\x7bsprint_id\x7d` with its catch-all wrapper. -/
def get_sprint (db : DB) (sprint_id : Nat) : Except HTTPError SprintResponse :=
  wrapEndpoint (get_sprint_inner db sprint_id)

/-- One entry of the daily-efforts listing. -/
structure DailyEffort where
  habit_name : String
  habit_id : Nat
  hours : ℚ
deriving Repr, DecidableEq

/-- Body of `get_daily_efforts` (lines 173-198): fetch the habits of the
sprint, 404 when there are none, then for each habit in fetch order report
its logged hours for the date, or the number 0 when no log exists. -/
def get_daily_efforts_inner (db : DB) (sprint_id : Nat) (d : Int) :
    Except ApiException (List DailyEffort) :=
  let sprint_habits := db.habits.filter (fun h => decide (h.sprint_id = sprint_id))
  if sprint_habits.isEmpty then
    .error (.http 404 "Sprint not found or has no habits")
  else
    .ok (sprint_habits.foldl (fun acc h =>
      let effort := db.effort_logs.find?
        (fun e => decide (e.habit_id = h.id ∧ e.date = d))
      acc ++ [⟨h.name, h.id, match effort with | some e => e.hours | none => 0⟩]) [])

/-- The endpoint `GET /api/sprints/\x7bsprint_id\x7d/efforts/\x7bdate\x7d`. -/
def get_daily_efforts (db : DB) (sprint_id : Nat) (d : Int) :
    Except HTTPError (List DailyEffort) :=
  wrapEndpoint (get_daily_efforts_inner db sprint_id d)

/-- Result of `POST /api/efforts`: a confirmation message on update, the
new row's id on insert. -/
inductive LogEffortResult where
  | updated (message : String)
  | inserted (effort_id : Nat)
deriving Repr, DecidableEq

/-- The endpoint `log_effort` (lines 202-228): look up an existing log for
(habit_id, date); if present update its hours in place (the UPDATE hits
every matching row), else insert a new row with a fresh id and the current
time as creation timestamp.  No validation of hours or habit existence. -/
def log_effort (db : DB) (now : Nat) (e : EffortCreate) :
    LogEffortResult × DB :=
  match db.effort_logs.find?
      (fun l => decide (l.habit_id = e.habit_id ∧ l.date = e.date)) with
  | some _ =>
      (.updated "Effort updated successfully",
       { db with effort_logs := db.effort_logs.map (fun l =>
           if l.habit_id = e.habit_id ∧ l.date = e.date then
             { l with hours := e.hours } else l) })
  | none =>
      let eid := db.next_effort_id
      (.inserted eid,
       { db with
         effort_logs := db.effort_logs ++ [⟨eid, e.habit_id, e.date, e.hours, now⟩],
         next_effort_id := eid + 1 })

/-- The endpoint `delete_sprint` (lines 232-255): fetch the habits of the sprint, delete
the effort logs of each in turn, then the habits, then the sprint row. -/
def delete_sprint (db : DB) (sprint_id : Nat) : String × DB :=
  let sprint_habits := db.habits.filter (fun h => decide (h.sprint_id = sprint_id))
  let efforts1 := sprint_habits.foldl
    (fun acc h => acc.filter (fun e => !decide (e.habit_id = h.id)))
    db.effort_logs
  let habits1 := db.habits.filter (fun h => !decide (h.sprint_id = sprint_id))
  let sprints1 := db.sprints.filter (fun s => !decide (s.id = sprint_id))
  ("Sprint deleted successfully",
   { db with sprints := sprints1, habits := habits1, effort_logs := efforts1 })

/-! ### Derived forms of the source functions, used to state the claims -/

/-- The per-log score of lines 155-156: `min(hours / target_hours, 1) * weight`. -/
def contribution (e : JoinedEffort) : ℚ :=
  min (e.hours / e.target_hours) 1 * e.weight

/-- The range test of line 154: `0 <= day_index < days_count`. -/
def inRange (start days_count : Int) (e : JoinedEffort) : Prop :=
  0 ≤ e.date - start ∧ e.date - start < days_count

instance (start days_count : Int) (e : JoinedEffort) :
    Decidable (inRange start days_count e) :=
  inferInstanceAs (Decidable (0 ≤ e.date - start ∧ e.date - start < days_count))

/-- Whether a joined effort log lands in day slot `i`: in range with
`day_index.toNat = i`. -/
def hitsDay (start days_count : Int) (i : Nat) (e : JoinedEffort) : Bool :=
  decide (inRange start days_count e ∧ (e.date - start).toNat = i)

/-- Pure form of one scoring-loop iteration, defined when the loop body
cannot raise: the slot is replaced by its previous value (0 when unset)
plus the log's contribution. -/
def applyEffortPure (start days_count : Int) (days : List (Option ℚ))
    (e : JoinedEffort) : List (Option ℚ) :=
  if inRange start days_count e then
    days.set (e.date - start).toNat
      (some ((((days[(e.date - start).toNat]?).bind id).getD 0) + contribution e))
  else days

/-- Folding a list of contributions into one slot: the first contribution
replaces the unset marker, later ones add (lines 157-160). -/
def slotFold (slot : Option ℚ) (cs : List ℚ) : Option ℚ :=
  cs.foldl (fun a q => some (a.getD 0 + q)) slot

/-- The effort-log rows stored for one (habit, date) key. -/
def rowsFor (db : DB) (hid : Nat) (d : Int) : List EffortLog :=
  db.effort_logs.filter (fun l => decide (l.habit_id = hid ∧ l.date = d))

/-- The §3 invariant: at most one EffortLog row per (habit, date) pair. -/
def UpsertInvariant (db : DB) : Prop :=
  ∀ hid d, (rowsFor db hid d).length ≤ 1

/-- Index of the last occurrence of a habit name in a submitted habit list. -/
def lastOcc (name : String) : List HabitCreate → Option Nat
  | [] => none
  | hc :: t =>
    match lastOcc name t with
    | some j => some (j + 1)
    | none => if hc.name = name then some 0 else none

/-- The habit rows `create_sprint` persists: one per submitted habit
specification, with consecutive auto-increment ids. -/
def habitRows (sprint_id : Nat) : Nat → List HabitCreate → List Habit
  | _, [] => []
  | hid, hc :: t =>
    ⟨hid, sprint_id, hc.name, hc.weight, hc.target_hours⟩ :: habitRows sprint_id (hid + 1) t

/-! ### Concrete databases used to witness the theorems -/

/-- The §8 scenario: sprint "Q1" over days 0..2 with habit "Read"
(weight 50, target 2 hours); 1 hour logged on day 0, 3 hours on day 1,
plus one stray log on day 9, outside the sprint range. -/
def dbW : DB :=
  ⟨[⟨1, "Q1", 0, 2, 0⟩],
   [⟨1, 1, "Read", 50, 2⟩],
   [⟨1, 1, 0, 1, 7⟩, ⟨2, 1, 1, 3, 8⟩, ⟨3, 1, 9, 4, 9⟩],
   2, 2, 4⟩

/-- A sprint over days 10..12 whose habit has `target_hours = 0` and one
effort log inside the range. -/
def dbZ : DB :=
  ⟨[⟨2, "Z", 10, 12, 0⟩],
   [⟨2, 2, "Zero", 30, 0⟩],
   [⟨1, 2, 11, 1, 9⟩],
   3, 3, 2⟩

/-- A sprint with no habits at all. -/
def dbN : DB :=
  ⟨[⟨5, "Empty", 3, 5, 0⟩], [], [], 6, 1, 1⟩

/-- The empty database. -/
def dbE : DB := ⟨[], [], [], 1, 1, 1⟩

/-- The sprint row stored in `dbW`. -/
def sprintW : Sprint := ⟨1, "Q1", 0, 2, 0⟩

/-- The sprint row stored in `dbZ`. -/
def sprintZ : Sprint := ⟨2, "Z", 10, 12, 0⟩

/-- The sprint row stored in `dbN`. -/
def sprintN : Sprint := ⟨5, "Empty", 3, 5, 0⟩

/-- The joined form of the single effort log of `dbZ`: date 11, 1 hour,
habit 2, weight 30, target 0. -/
def effortZ : JoinedEffort := ⟨11, 1, 2, 30, 0⟩

/-- A sprint-creation request with two habits sharing the name "A". -/
def screate : SprintCreate := ⟨"D", 0, 1, [⟨"A", 10, 1⟩, ⟨"A", 20, 2⟩]⟩

/-! ### Lemmas on the scoring loop -/

theorem applyEffort_eq_ok (start days_count : Int) (days : List (Option ℚ))
    (e : JoinedEffort) (h : inRange start days_count e → e.target_hours ≠ 0) :
    applyEffort start days_count days e =
      Except.ok (applyEffortPure start days_count days e) := by
  by_cases hr : inRange start days_count e
  · have h12 : 0 ≤ e.date - start ∧ e.date - start < days_count := hr
    obtain ⟨h1, h2⟩ := h12
    have h0 : e.target_hours ≠ 0 := h hr
    cases hD : days[(e.date - start).toNat]? with
    | none =>
        have hlen : days.length ≤ (e.date - start).toNat := by
          by_contra hc
          push_neg at hc
          rw [List.getElem?_eq_getElem hc] at hD
          exact Option.noConfusion hD
        simp [applyEffort, applyEffortPure, inRange, h1, h2, h0, hD,
          List.set_eq_of_length_le hlen]
    | some slot =>
        cases slot with
        | none =>
            simp [applyEffort, applyEffortPure, inRange, h1, h2, h0, hD, contribution]
        | some v =>
            simp [applyEffort, applyEffortPure, inRange, h1, h2, h0, hD, contribution]
  · have hr2 : ¬ (0 ≤ e.date - start ∧ e.date - start < days_count) := hr
    simp only [applyEffort, applyEffortPure]
    rw [if_neg hr2, if_neg hr]

theorem applyEffort_eq_error (start days_count : Int) (days : List (Option ℚ))
    (e : JoinedEffort) (hr : inRange start days_count e)
    (h0 : e.target_hours = 0) :
    applyEffort start days_count days e = Except.error ApiException.zeroDivision := by
  have h12 : 0 ≤ e.date - start ∧ e.date - start < days_count := hr
  obtain ⟨h1, h2⟩ := h12
  simp [applyEffort, h1, h2, h0]

theorem foldlM_applyEffort_ok (start days_count : Int) (es : List JoinedEffort)
    (h : ∀ e ∈ es, inRange start days_count e → e.target_hours ≠ 0) :
    ∀ days : List (Option ℚ),
      es.foldlM (applyEffort start days_count) days =
        Except.ok (es.foldl (applyEffortPure start days_count) days) := by
  induction es with
  | nil => intro days; rfl
  | cons e t ih =>
      intro days
      have he : inRange start days_count e → e.target_hours ≠ 0 :=
        h e (List.mem_cons_self e t)
      have ht : ∀ x ∈ t, inRange start days_count x → x.target_hours ≠ 0 :=
        fun x hx => h x (List.mem_cons_of_mem e hx)
      rw [List.foldlM_cons, applyEffort_eq_ok start days_count days e he]
      exact ih ht (applyEffortPure start days_count days e)

theorem foldlM_applyEffort_error (start days_count : Int)
    (es : List JoinedEffort)
    (h : ∃ e ∈ es, inRange start days_count e ∧ e.target_hours = 0) :
    ∀ days : List (Option ℚ),
      es.foldlM (applyEffort start days_count) days =
        Except.error ApiException.zeroDivision := by
  induction es with
  | nil => exact absurd h (by simp)
  | cons e t ih =>
      intro days
      rw [List.foldlM_cons]
      by_cases hbad : inRange start days_count e ∧ e.target_hours = 0
      · rw [applyEffort_eq_error start days_count days e hbad.1 hbad.2]
        rfl
      · have he : inRange start days_count e → e.target_hours ≠ 0 := by
          intro hr h0; exact hbad ⟨hr, h0⟩
        rw [applyEffort_eq_ok start days_count days e he]
        have ht : ∃ x ∈ t, inRange start days_count x ∧ x.target_hours = 0 := by
          obtain ⟨x, hx, hxp⟩ := h
          rcases List.mem_cons.mp hx with rfl | hx'
          · exact absurd hxp hbad
          · exact ⟨x, hx', hxp⟩
        exact ih ht (applyEffortPure start days_count days e)

theorem length_applyEffortPure (start days_count : Int)
    (days : List (Option ℚ)) (e : JoinedEffort) :
    (applyEffortPure start days_count days e).length = days.length := by
  unfold applyEffortPure
  split <;> simp

theorem length_foldl_applyEffortPure (start days_count : Int)
    (es : List JoinedEffort) :
    ∀ days : List (Option ℚ),
      (es.foldl (applyEffortPure start days_count) days).length = days.length := by
  induction es with
  | nil => intro days; rfl
  | cons e t ih =>
      intro days
      rw [List.foldl_cons, ih, length_applyEffortPure]

theorem slotFold_some (a : ℚ) (cs : List ℚ) :
    slotFold (some a) cs = some (a + cs.sum) := by
  induction cs generalizing a with
  | nil => simp [slotFold]
  | cons c t ih =>
      show slotFold (some (a + c)) t = _
      rw [ih, List.sum_cons, add_assoc]

theorem slotFold_none (cs : List ℚ) :
    slotFold none cs = if cs.isEmpty then none else some cs.sum := by
  cases cs with
  | nil => rfl
  | cons c t =>
      show slotFold (some (0 + c)) t = _
      rw [slotFold_some, List.isEmpty_cons, List.sum_cons]
      simp [add_assoc]

theorem getElem?_foldl_applyEffortPure (start days_count : Int) :
    ∀ (es : List JoinedEffort) (days : List (Option ℚ)) (i : Nat),
      (es.foldl (applyEffortPure start days_count) days)[i]? =
        (days[i]?).map (fun slot =>
          slotFold slot ((es.filter (hitsDay start days_count i)).map contribution)) := by
  intro es
  induction es with
  | nil =>
      intro days i
      cases h : days[i]? <;> simp [h, slotFold]
  | cons e t ih =>
      intro days i
      rw [List.foldl_cons, ih]
      by_cases hh : hitsDay start days_count i e = true
      · have hh' : inRange start days_count e ∧ (e.date - start).toNat = i :=
          of_decide_eq_true hh
        obtain ⟨hr, hi⟩ := hh'
        rw [List.filter_cons_of_pos hh, List.map_cons]
        cases hD : days[i]? with
        | none =>
            have hlen : days.length ≤ i := by
              by_contra hc
              push_neg at hc
              rw [List.getElem?_eq_getElem hc] at hD
              exact Option.noConfusion hD
            have : applyEffortPure start days_count days e = days := by
              unfold applyEffortPure
              rw [if_pos hr, hi, List.set_eq_of_length_le hlen]
            rw [this, hD]
            simp
        | some slot =>
            have hlt : i < days.length := by
              by_contra hc
              push_neg at hc
              rw [List.getElem?_eq_none hc] at hD
              exact Option.noConfusion hD
            have hset : (applyEffortPure start days_count days e)[i]? =
                some (some (slot.getD 0 + contribution e)) := by
              unfold applyEffortPure
              rw [if_pos hr, hi, List.getElem?_set_self (by simpa using hlt), hD]
              rfl
            rw [hset]
            rfl
      · have hskip : (applyEffortPure start days_count days e)[i]? = days[i]? := by
          unfold applyEffortPure
          by_cases hr : inRange start days_count e
          · rw [if_pos hr]
            have hi : (e.date - start).toNat ≠ i := by
              intro hc
              exact hh (decide_eq_true ⟨hr, hc⟩)
            rw [List.getElem?_set_ne hi]
          · rw [if_neg hr]
        rw [hskip, List.filter_cons_of_neg (by simpa using hh)]

theorem foldl_applyEffortPure_filter (start days_count : Int) :
    ∀ (es : List JoinedEffort) (days : List (Option ℚ)),
      (es.filter (fun e => decide (inRange start days_count e))).foldl
        (applyEffortPure start days_count) days =
      es.foldl (applyEffortPure start days_count) days := by
  intro es
  induction es with
  | nil => intro days; rfl
  | cons e t ih =>
      intro days
      by_cases hr : inRange start days_count e
      · have hfc : (e :: t).filter (fun x => decide (inRange start days_count x)) =
            e :: t.filter (fun x => decide (inRange start days_count x)) := by
          simp [List.filter_cons, hr]
        rw [hfc, List.foldl_cons, List.foldl_cons, ih]
      · have hid : applyEffortPure start days_count days e = days := by
          unfold applyEffortPure; rw [if_neg hr]
        have hfc : (e :: t).filter (fun x => decide (inRange start days_count x)) =
            t.filter (fun x => decide (inRange start days_count x)) := by
          simp [List.filter_cons, hr]
        rw [hfc, List.foldl_cons, hid, ih]

/-! ### Lemmas on the endpoints -/

theorem get_sprint_ok (db : DB) (sid : Nat) (sprint : Sprint)
    (hfind : db.sprints.find? (fun s => s.id = sid) = some sprint)
    (hne : ∀ e ∈ joinEfforts db sid,
      inRange sprint.start_date (daysCount sprint) e → e.target_hours ≠ 0) :
    get_sprint db sid = Except.ok
      ⟨sprint.id, sprint.name, sprint.start_date, sprint.end_date,
       db.habits.filter (fun h => decide (h.sprint_id = sid)),
       (joinEfforts db sid).foldl
         (applyEffortPure sprint.start_date (daysCount sprint))
         (List.replicate (daysCount sprint).toNat none)⟩ := by
  simp only [get_sprint, wrapEndpoint, get_sprint_inner, hfind]
  rw [foldlM_applyEffort_ok sprint.start_date (daysCount sprint)
    (joinEfforts db sid) hne]

theorem get_sprint_notFound (db : DB) (sid : Nat)
    (h : db.sprints.find? (fun s => s.id = sid) = none) :
    get_sprint db sid = Except.error ⟨500, "404: Sprint not found"⟩ := by
  simp only [get_sprint, wrapEndpoint, get_sprint_inner, h]
  rfl

theorem get_daily_efforts_noHabits (db : DB) (sid : Nat) (d : Int)
    (h : db.habits.filter (fun hb => decide (hb.sprint_id = sid)) = []) :
    get_daily_efforts db sid d =
      Except.error ⟨500, "404: Sprint not found or has no habits"⟩ := by
  simp only [get_daily_efforts, wrapEndpoint, get_daily_efforts_inner, h]
  rfl

theorem joinEfforts_eq_nil (db : DB) (sid : Nat)
    (h : ∀ hb ∈ db.habits, ¬ hb.sprint_id = sid) :
    joinEfforts db sid = [] := by
  unfold joinEfforts
  rw [List.filterMap_eq_nil_iff]
  intro e _
  cases hf : db.habits.find? (fun hb => hb.id = e.habit_id) with
  | none => rfl
  | some hb =>
      have hmem : hb ∈ db.habits := List.mem_of_find?_eq_some hf
      simp [h hb hmem]

/-! ### The claims -/

/-- C1: on a successful sprint retrieval, every day slot inside the range
holds exactly the sum of `min(hours / target_hours, 1) * weight` over the
effort logs landing on that day (additively accumulated, `null` when there
are none); a log with `hours > target_hours > 0` contributes exactly the
habit's weight (capped, no bonus), and a log with `hours = target_hours`
contributes the full weight. -/
theorem C1_per_day_contribution (db : DB) (sid : Nat) (sprint : Sprint)
    (hfind : db.sprints.find? (fun s => s.id = sid) = some sprint)
    (hne : ∀ e ∈ joinEfforts db sid,
      inRange sprint.start_date (daysCount sprint) e → e.target_hours ≠ 0) :
    ∃ resp, get_sprint db sid = Except.ok resp ∧
      (∀ i : Nat, i < (daysCount sprint).toNat →
        resp.days[i]? = some (
          if ((joinEfforts db sid).filter
              (hitsDay sprint.start_date (daysCount sprint) i)).isEmpty then none
          else some (((joinEfforts db sid).filter
              (hitsDay sprint.start_date (daysCount sprint) i)).map
              (fun e => min (e.hours / e.target_hours) 1 * e.weight)).sum)) ∧
      (∀ e ∈ joinEfforts db sid, 0 < e.target_hours → e.target_hours < e.hours →
        min (e.hours / e.target_hours) 1 * e.weight = e.weight) ∧
      (∀ e ∈ joinEfforts db sid, e.target_hours ≠ 0 → e.hours = e.target_hours →
        min (e.hours / e.target_hours) 1 * e.weight = e.weight) := by
  refine ⟨_, get_sprint_ok db sid sprint hfind hne, ?_, ?_, ?_⟩
  · intro i hi
    dsimp only
    rw [getElem?_foldl_applyEffortPure, List.getElem?_replicate, if_pos hi]
    simp only [Option.map_some']
    rw [slotFold_none]
    cases hF : (joinEfforts db sid).filter
        (hitsDay sprint.start_date (daysCount sprint) i) with
    | nil => simp
    | cons a l =>
        have hc : contribution = fun e : JoinedEffort =>
            min (e.hours / e.target_hours) 1 * e.weight := rfl
        simp [hc]
  · intro e _ ht hlt
    have h1 : (1:ℚ) ≤ e.hours / e.target_hours := le_of_lt ((one_lt_div ht).mpr hlt)
    rw [min_eq_right h1, one_mul]
  · intro e _ ht heq
    rw [heq, div_self ht, min_self, one_mul]

/-- Witness for C1 on the §8 scenario database. -/
theorem C1_per_day_contribution_witness :
    ∃ resp, get_sprint dbW 1 = Except.ok resp ∧
      (∀ i : Nat, i < (daysCount sprintW).toNat →
        resp.days[i]? = some (
          if ((joinEfforts dbW 1).filter
              (hitsDay sprintW.start_date (daysCount sprintW) i)).isEmpty then none
          else some (((joinEfforts dbW 1).filter
              (hitsDay sprintW.start_date (daysCount sprintW) i)).map
              (fun e => min (e.hours / e.target_hours) 1 * e.weight)).sum)) ∧
      (∀ e ∈ joinEfforts dbW 1, 0 < e.target_hours → e.target_hours < e.hours →
        min (e.hours / e.target_hours) 1 * e.weight = e.weight) ∧
      (∀ e ∈ joinEfforts dbW 1, e.target_hours ≠ 0 → e.hours = e.target_hours →
        min (e.hours / e.target_hours) 1 * e.weight = e.weight) :=
  C1_per_day_contribution dbW 1 sprintW (by rfl) (by decide)

/-- C2: on a successful sprint retrieval the days array has exactly
`(end_date - start_date).days + 1` slots; the scoring fold is unchanged by
discarding the effort logs whose day index falls outside the range
(out-of-range logs are silently ignored); and a slot no log lands on stays
the unset marker `null`, not zero. -/
theorem C2_days_array_bounds (db : DB) (sid : Nat) (sprint : Sprint)
    (hfind : db.sprints.find? (fun s => s.id = sid) = some sprint)
    (hne : ∀ e ∈ joinEfforts db sid,
      inRange sprint.start_date (daysCount sprint) e → e.target_hours ≠ 0)
    (hse : sprint.start_date ≤ sprint.end_date) :
    ∃ resp, get_sprint db sid = Except.ok resp ∧
      (resp.days.length : Int) = (sprint.end_date - sprint.start_date) + 1 ∧
      resp.days = ((joinEfforts db sid).filter
          (fun e => decide (inRange sprint.start_date (daysCount sprint) e))).foldl
          (applyEffortPure sprint.start_date (daysCount sprint))
          (List.replicate (daysCount sprint).toNat none) ∧
      (∀ i : Nat, i < resp.days.length →
        (joinEfforts db sid).filter (hitsDay sprint.start_date (daysCount sprint) i) = [] →
        resp.days[i]? = some none) := by
  refine ⟨_, get_sprint_ok db sid sprint hfind hne, ?_, ?_, ?_⟩
  · dsimp only
    rw [length_foldl_applyEffortPure, List.length_replicate]
    unfold daysCount
    omega
  · dsimp only
    rw [foldl_applyEffortPure_filter]
  · intro i hi hnil
    dsimp only at hi ⊢
    rw [length_foldl_applyEffortPure, List.length_replicate] at hi
    rw [getElem?_foldl_applyEffortPure, List.getElem?_replicate, if_pos hi]
    simp [hnil, slotFold]

/-- Witness for C2 on the §8 scenario database, whose third effort log
lies outside the sprint range. -/
theorem C2_days_array_bounds_witness :
    ∃ resp, get_sprint dbW 1 = Except.ok resp ∧
      (resp.days.length : Int) = (sprintW.end_date - sprintW.start_date) + 1 ∧
      resp.days = ((joinEfforts dbW 1).filter
          (fun e => decide (inRange sprintW.start_date (daysCount sprintW) e))).foldl
          (applyEffortPure sprintW.start_date (daysCount sprintW))
          (List.replicate (daysCount sprintW).toNat none) ∧
      (∀ i : Nat, i < resp.days.length →
        (joinEfforts dbW 1).filter (hitsDay sprintW.start_date (daysCount sprintW) i) = [] →
        resp.days[i]? = some none) :=
  C2_days_array_bounds dbW 1 sprintW (by rfl) (by decide) (by decide)

/-- C5: if a habit of the sprint has `target_hours = 0` and some effort
log of it lands inside the sprint range, sprint retrieval fails with the
arithmetic error propagated as an operation failure (a 500 response
carrying the division-by-zero message), not a silent skip or zero. -/
theorem C5_zero_target_fails (db : DB) (sid : Nat) (sprint : Sprint)
    (e : JoinedEffort)
    (hfind : db.sprints.find? (fun s => s.id = sid) = some sprint)
    (he : e ∈ joinEfforts db sid)
    (hin : inRange sprint.start_date (daysCount sprint) e)
    (ht : e.target_hours = 0) :
    get_sprint db sid = Except.error ⟨500, "float division by zero"⟩ := by
  simp only [get_sprint, wrapEndpoint, get_sprint_inner, hfind]
  rw [foldlM_applyEffort_error sprint.start_date (daysCount sprint)
    (joinEfforts db sid) ⟨e, he, hin, ht⟩]
  rfl

/-- Witness for C5 on the zero-target database. -/
theorem C5_zero_target_fails_witness :
    get_sprint dbZ 2 = Except.error ⟨500, "float division by zero"⟩ :=
  C5_zero_target_fails dbZ 2 sprintZ effortZ (by rfl) (by decide) (by decide)
    (by decide)

/-- C8: retrieving an absent sprint fails with NotFound, surfaced by the
catch-all propagation policy as a single generic internal-failure (500)
response carrying the underlying message; every other endpoint error is
wrapped the same way. -/
theorem C8_not_found_wrapped (db : DB) (sid : Nat)
    (h : db.sprints.find? (fun s => s.id = sid) = none) :
    get_sprint db sid = Except.error ⟨500, "404: Sprint not found"⟩ ∧
    (∀ ex : ApiException,
      (wrapEndpoint (Except.error ex) : Except HTTPError SprintResponse) =
        Except.error ⟨500, ex.message⟩) :=
  ⟨get_sprint_notFound db sid h, fun _ => rfl⟩

/-- Witness for C8 on the empty database. -/
theorem C8_not_found_wrapped_witness :
    get_sprint dbE 1 = Except.error ⟨500, "404: Sprint not found"⟩ ∧
    (∀ ex : ApiException,
      (wrapEndpoint (Except.error ex) : Except HTTPError SprintResponse) =
        Except.error ⟨500, ex.message⟩) :=
  C8_not_found_wrapped dbE 1 (by rfl)

/-! ### Lemmas on the effort upsert -/

theorem log_effort_update (db : DB) (now : Nat) (e : EffortCreate) (r : EffortLog)
    (hfind : db.effort_logs.find?
      (fun l => decide (l.habit_id = e.habit_id ∧ l.date = e.date)) = some r) :
    log_effort db now e =
      (.updated "Effort updated successfully",
       { db with effort_logs := db.effort_logs.map (fun l =>
           if l.habit_id = e.habit_id ∧ l.date = e.date then
             { l with hours := e.hours } else l) }) := by
  simp only [log_effort, hfind]

theorem log_effort_insert (db : DB) (now : Nat) (e : EffortCreate)
    (hfind : db.effort_logs.find?
      (fun l => decide (l.habit_id = e.habit_id ∧ l.date = e.date)) = none) :
    log_effort db now e =
      (.inserted db.next_effort_id,
       { db with
         effort_logs := db.effort_logs ++
           [⟨db.next_effort_id, e.habit_id, e.date, e.hours, now⟩],
         next_effort_id := db.next_effort_id + 1 }) := by
  simp only [log_effort, hfind]

theorem filter_update_map (logs : List EffortLog) (hid0 hid : Nat)
    (d0 d : Int) (q : ℚ) :
    (logs.map (fun l => if l.habit_id = hid0 ∧ l.date = d0 then
        { l with hours := q } else l)).filter
      (fun l => decide (l.habit_id = hid ∧ l.date = d)) =
    (logs.filter (fun l => decide (l.habit_id = hid ∧ l.date = d))).map
      (fun l => if l.habit_id = hid0 ∧ l.date = d0 then
        { l with hours := q } else l) := by
  rw [List.filter_map]
  have hpf : ((fun l : EffortLog => decide (l.habit_id = hid ∧ l.date = d)) ∘
      (fun l : EffortLog => if l.habit_id = hid0 ∧ l.date = d0 then
        { l with hours := q } else l)) =
      (fun l : EffortLog => decide (l.habit_id = hid ∧ l.date = d)) := by
    funext l
    by_cases h : l.habit_id = hid0 ∧ l.date = d0 <;> simp [Function.comp, h]
  rw [hpf]

theorem UpsertInvariant_log_effort (db : DB) (now : Nat) (e : EffortCreate)
    (hinv : UpsertInvariant db) : UpsertInvariant (log_effort db now e).2 := by
  cases hfind : db.effort_logs.find?
      (fun l => decide (l.habit_id = e.habit_id ∧ l.date = e.date)) with
  | some r =>
      rw [log_effort_update db now e r hfind]
      intro hid d
      show ((db.effort_logs.map _).filter _).length ≤ 1
      rw [filter_update_map, List.length_map]
      exact hinv hid d
  | none =>
      rw [log_effort_insert db now e hfind]
      intro hid d
      show ((db.effort_logs ++ _).filter _).length ≤ 1
      rw [List.filter_append, List.length_append]
      by_cases hk : e.habit_id = hid ∧ e.date = d
      · have hnil : db.effort_logs.filter
            (fun l => decide (l.habit_id = hid ∧ l.date = d)) = [] := by
          rw [List.filter_eq_nil_iff]
          intro l hl
          have hne := List.find?_eq_none.mp hfind l hl
          simp only [decide_eq_true_eq] at hne ⊢
          rw [hk.1, hk.2] at hne
          exact hne
        rw [hnil]
        simp [hk.1, hk.2]
      · have hone : (([⟨db.next_effort_id, e.habit_id, e.date, e.hours, now⟩] :
            List EffortLog).filter
            (fun l => decide (l.habit_id = hid ∧ l.date = d))) = [] := by
          simp only [List.filter, decide_eq_true_eq]
          simp [hk]
        rw [hone]
        simpa [rowsFor] using hinv hid d

theorem rowsFor_log_effort_self (db : DB) (now : Nat) (e : EffortCreate)
    (hinv : UpsertInvariant db) :
    ∃ i c, rowsFor (log_effort db now e).2 e.habit_id e.date =
      [⟨i, e.habit_id, e.date, e.hours, c⟩] := by
  cases hfind : db.effort_logs.find?
      (fun l => decide (l.habit_id = e.habit_id ∧ l.date = e.date)) with
  | none =>
      refine ⟨db.next_effort_id, now, ?_⟩
      rw [log_effort_insert db now e hfind]
      show (db.effort_logs ++ _).filter _ = _
      rw [List.filter_append]
      have hnil : db.effort_logs.filter
          (fun l => decide (l.habit_id = e.habit_id ∧ l.date = e.date)) = [] := by
        rw [List.filter_eq_nil_iff]
        exact fun l hl => List.find?_eq_none.mp hfind l hl
      rw [hnil]
      simp
  | some r =>
      have hp := List.find?_some hfind
      have hmem : r ∈ rowsFor db e.habit_id e.date := by
        unfold rowsFor
        exact List.mem_filter.mpr ⟨List.mem_of_find?_eq_some hfind, hp⟩
      have hlen := hinv e.habit_id e.date
      obtain ⟨x, hx⟩ : ∃ x, rowsFor db e.habit_id e.date = [x] := by
        cases hRF : rowsFor db e.habit_id e.date with
        | nil => rw [hRF] at hmem; exact absurd hmem (List.not_mem_nil r)
        | cons x t =>
            rw [hRF] at hlen
            cases t with
            | nil => exact ⟨x, rfl⟩
            | cons y u => simp at hlen
      have hxk : x.habit_id = e.habit_id ∧ x.date = e.date := by
        have hxm : x ∈ rowsFor db e.habit_id e.date := by
          rw [hx]; exact List.mem_singleton.mpr rfl
        exact of_decide_eq_true (List.mem_filter.mp hxm).2
      refine ⟨x.id, x.created_at, ?_⟩
      rw [log_effort_update db now e r hfind]
      show (db.effort_logs.map _).filter _ = _
      rw [filter_update_map]
      have hxeq : List.filter
          (fun l => decide (l.habit_id = e.habit_id ∧ l.date = e.date))
          db.effort_logs = [x] := hx
      rw [hxeq]
      simp only [List.map_cons, List.map_nil, if_pos hxk]
      cases x with
      | mk xi xh xd xq xc =>
          obtain ⟨h1, h2⟩ := hxk
          simp only at h1 h2
          rw [h1, h2]

/-- C3: the effort upsert preserves the at-most-one-row-per-(habit, date)
invariant under sequential execution; upserting the same (habit, date,
hours) twice leaves exactly one row with those hours, and upserting hours
3 then hours 5 for the same key leaves exactly one row with hours 5. -/
theorem C3_upsert_invariant (db : DB) (hinv : UpsertInvariant db) :
    (∀ now e, UpsertInvariant (log_effort db now e).2) ∧
    (∀ now now2 e, ∃ i c,
      rowsFor (log_effort (log_effort db now e).2 now2 e).2 e.habit_id e.date =
        [⟨i, e.habit_id, e.date, e.hours, c⟩]) ∧
    (∀ now now2 hid d, ∃ i c,
      rowsFor (log_effort (log_effort db now ⟨hid, d, 3⟩).2 now2 ⟨hid, d, 5⟩).2 hid d =
        [⟨i, hid, d, 5, c⟩]) := by
  refine ⟨fun now e => UpsertInvariant_log_effort db now e hinv, ?_, ?_⟩
  · intro now now2 e
    exact rowsFor_log_effort_self _ now2 e (UpsertInvariant_log_effort db now e hinv)
  · intro now now2 hid d
    exact rowsFor_log_effort_self _ now2 ⟨hid, d, 5⟩
      (UpsertInvariant_log_effort db now ⟨hid, d, 3⟩ hinv)

/-- Witness for C3 starting from the empty database. -/
theorem C3_upsert_invariant_witness :
    (∀ now e, UpsertInvariant (log_effort dbE now e).2) ∧
    (∀ now now2 e, ∃ i c,
      rowsFor (log_effort (log_effort dbE now e).2 now2 e).2 e.habit_id e.date =
        [⟨i, e.habit_id, e.date, e.hours, c⟩]) ∧
    (∀ now now2 hid d, ∃ i c,
      rowsFor (log_effort (log_effort dbE now ⟨hid, d, 3⟩).2 now2 ⟨hid, d, 5⟩).2 hid d =
        [⟨i, hid, d, 5, c⟩]) :=
  C3_upsert_invariant dbE (fun hid d => by simp [rowsFor, dbE])

/-- C4: when a row exists for (habit_id, date) the upsert overwrites its
hours in place, keeping every row's identity and creation timestamp (and
position) unchanged, and returns only a confirmation message; when no row
exists it appends a new row and returns its fresh identity.  The outcome
never depends on the habits table (the habit need not exist) and no
constraint on hours is checked (the statement quantifies over every
`e`, negative hours included). -/
theorem C4_upsert_branches (db : DB) (now : Nat) (e : EffortCreate) :
    ((∃ r, db.effort_logs.find?
        (fun l => decide (l.habit_id = e.habit_id ∧ l.date = e.date)) = some r) →
      (log_effort db now e).1 = .updated "Effort updated successfully" ∧
      (log_effort db now e).2.effort_logs.length = db.effort_logs.length ∧
      (∀ i : Nat, ∀ l, db.effort_logs[i]? = some l →
        (log_effort db now e).2.effort_logs[i]? = some
          (if l.habit_id = e.habit_id ∧ l.date = e.date then
            ⟨l.id, l.habit_id, l.date, e.hours, l.created_at⟩ else l))) ∧
    (db.effort_logs.find?
        (fun l => decide (l.habit_id = e.habit_id ∧ l.date = e.date)) = none →
      (log_effort db now e).1 = .inserted db.next_effort_id ∧
      (log_effort db now e).2.effort_logs =
        db.effort_logs ++ [⟨db.next_effort_id, e.habit_id, e.date, e.hours, now⟩]) ∧
    (∀ habits2 : List Habit,
      (log_effort { db with habits := habits2 } now e).1 = (log_effort db now e).1 ∧
      (log_effort { db with habits := habits2 } now e).2.effort_logs =
        (log_effort db now e).2.effort_logs) := by
  refine ⟨?_, ?_, ?_⟩
  · rintro ⟨r, hfind⟩
    rw [log_effort_update db now e r hfind]
    refine ⟨rfl, by simp, ?_⟩
    intro i l hl
    show (db.effort_logs.map _)[i]? = _
    rw [List.getElem?_map, hl, Option.map_some']
  · intro hfind
    rw [log_effort_insert db now e hfind]
    exact ⟨rfl, rfl⟩
  · intro habits2
    cases hfind : db.effort_logs.find?
        (fun l => decide (l.habit_id = e.habit_id ∧ l.date = e.date)) with
    | some r =>
        rw [log_effort_update db now e r hfind,
          log_effort_update { db with habits := habits2 } now e r hfind]
        exact ⟨rfl, rfl⟩
    | none =>
        rw [log_effort_insert db now e hfind,
          log_effort_insert { db with habits := habits2 } now e hfind]
        exact ⟨rfl, rfl⟩

/-- Witness for C4: updating the existing (habit 1, day 0) row of the
scenario database returns only a message, inserting into the empty
database returns the fresh identity 1, both with negative hours. -/
theorem C4_upsert_branches_witness :
    (log_effort dbW 5 ⟨1, 0, -9⟩).1 = .updated "Effort updated successfully" ∧
    (log_effort dbE 5 ⟨1, 0, -9⟩).1 = .inserted 1 :=
  ⟨((C4_upsert_branches dbW 5 ⟨1, 0, -9⟩).1 ⟨⟨1, 1, 0, 1, 7⟩, by rfl⟩).1,
   ((C4_upsert_branches dbE 5 ⟨1, 0, -9⟩).2.1 (by rfl)).1⟩

/-! ### Lemmas on sprint deletion -/

theorem delete_sprint_eq (db : DB) (sid : Nat) :
    delete_sprint db sid = ("Sprint deleted successfully",
      { db with
        sprints := db.sprints.filter (fun s => !decide (s.id = sid)),
        habits := db.habits.filter (fun h => !decide (h.sprint_id = sid)),
        effort_logs := (db.habits.filter (fun h => decide (h.sprint_id = sid))).foldl
          (fun acc h => acc.filter (fun e => !decide (e.habit_id = h.id)))
          db.effort_logs }) := rfl

theorem mem_foldl_filter_effort (hs : List Habit) :
    ∀ (l : List EffortLog) (x : EffortLog),
      x ∈ hs.foldl (fun acc h => acc.filter (fun e => !decide (e.habit_id = h.id))) l ↔
        (x ∈ l ∧ ∀ h ∈ hs, ¬ x.habit_id = h.id) := by
  induction hs with
  | nil => intro l x; simp
  | cons h t ih =>
      intro l x
      rw [List.foldl_cons, ih]
      constructor
      · rintro ⟨hx, hall⟩
        have hm := List.mem_filter.mp hx
        refine ⟨hm.1, ?_⟩
        intro h2 hh2
        rcases List.mem_cons.mp hh2 with rfl | hh2
        · simpa using hm.2
        · exact hall h2 hh2
      · rintro ⟨hx, hall⟩
        refine ⟨List.mem_filter.mpr ⟨hx, ?_⟩,
          fun h2 hh2 => hall h2 (List.mem_cons_of_mem h hh2)⟩
        simpa using hall h (List.mem_cons_self h t)

/-- C6: sprint deletion always reports success; afterwards no sprint row
with the deleted identity, no habit of the sprint, and no effort log of
any of the sprint's habits remains, so neither the sprint nor its daily
efforts are retrievable any more; deleting an identity that does not
exist (with no habit referencing it) is a no-op that still succeeds. -/
theorem C6_cascade_delete (db : DB) (sid : Nat) :
    (delete_sprint db sid).1 = "Sprint deleted successfully" ∧
    (∀ s ∈ (delete_sprint db sid).2.sprints, ¬ s.id = sid) ∧
    (∀ h ∈ (delete_sprint db sid).2.habits, ¬ h.sprint_id = sid) ∧
    (∀ l ∈ (delete_sprint db sid).2.effort_logs,
      ∀ h ∈ db.habits, h.sprint_id = sid → ¬ l.habit_id = h.id) ∧
    get_sprint (delete_sprint db sid).2 sid =
      Except.error ⟨500, "404: Sprint not found"⟩ ∧
    (∀ d, get_daily_efforts (delete_sprint db sid).2 sid d =
      Except.error ⟨500, "404: Sprint not found or has no habits"⟩) ∧
    ((db.sprints.find? (fun s => s.id = sid) = none ∧
        ∀ h ∈ db.habits, ¬ h.sprint_id = sid) →
      (delete_sprint db sid).2 = db) := by
  rw [delete_sprint_eq]
  refine ⟨rfl, ?_, ?_, ?_, ?_, ?_, ?_⟩
  · intro s hs
    have := (List.mem_filter.mp hs).2
    simpa using this
  · intro h hh
    have := (List.mem_filter.mp hh).2
    simpa using this
  · intro l hl h hh hsid
    have hall := ((mem_foldl_filter_effort _ _ _).mp hl).2
    exact hall h (List.mem_filter.mpr ⟨hh, by simp [hsid]⟩)
  · apply get_sprint_notFound
    rw [List.find?_eq_none]
    intro s hs
    have := (List.mem_filter.mp hs).2
    simpa using this
  · intro d
    apply get_daily_efforts_noHabits
    rw [List.filter_eq_nil_iff]
    intro h hh
    have := (List.mem_filter.mp hh).2
    simpa using this
  · rintro ⟨hf, hh⟩
    have h1 : db.sprints.filter (fun s => !decide (s.id = sid)) = db.sprints := by
      rw [List.filter_eq_self]
      intro s hs
      have := List.find?_eq_none.mp hf s hs
      simpa using this
    have h2 : db.habits.filter (fun h => !decide (h.sprint_id = sid)) = db.habits := by
      rw [List.filter_eq_self]
      intro h hmem
      simpa using hh h hmem
    have h3 : db.habits.filter (fun h => decide (h.sprint_id = sid)) = [] := by
      rw [List.filter_eq_nil_iff]
      intro h hmem
      simpa using hh h hmem
    rw [h1, h2, h3]
    rfl

/-- Witness for C6: deleting sprint 1 from the scenario database, and a
no-op delete on the empty database. -/
theorem C6_cascade_delete_witness :
    (delete_sprint dbW 1).1 = "Sprint deleted successfully" ∧
    get_sprint (delete_sprint dbW 1).2 1 =
      Except.error ⟨500, "404: Sprint not found"⟩ ∧
    (delete_sprint dbE 1).2 = dbE :=
  ⟨(C6_cascade_delete dbW 1).1,
   (C6_cascade_delete dbW 1).2.2.2.2.1,
   (C6_cascade_delete dbE 1).2.2.2.2.2.2 ⟨by rfl, by simp [dbE]⟩⟩

/-! ### Lemmas on the daily-effort listing -/

theorem foldl_append_eq_map {α β : Type} (f : α → β) :
    ∀ (l : List α) (acc : List β),
      l.foldl (fun a x => a ++ [f x]) acc = acc ++ l.map f := by
  intro l
  induction l with
  | nil => intro acc; simp
  | cons x t ih =>
      intro acc
      rw [List.foldl_cons, ih, List.map_cons]
      simp

/-- C7: the daily-effort listing fails with the wrapped NotFound response
when the sprint has no habits; otherwise it returns, in habit fetch
order, one entry per habit carrying the habit's identity and name and its
logged hours for the date, with the explicit number 0 (not null) when no
log exists. -/
theorem C7_daily_efforts_listing (db : DB) (sid : Nat) (d : Int) :
    (db.habits.filter (fun hb => decide (hb.sprint_id = sid)) = [] →
      get_daily_efforts db sid d =
        Except.error ⟨500, "404: Sprint not found or has no habits"⟩) ∧
    (db.habits.filter (fun hb => decide (hb.sprint_id = sid)) ≠ [] →
      get_daily_efforts db sid d = Except.ok
        ((db.habits.filter (fun hb => decide (hb.sprint_id = sid))).map (fun hb =>
          ⟨hb.name, hb.id,
           ((db.effort_logs.find?
              (fun l => decide (l.habit_id = hb.id ∧ l.date = d))).map
              (fun l => l.hours)).getD 0⟩))) := by
  constructor
  · exact get_daily_efforts_noHabits db sid d
  · intro hne
    have hem : (db.habits.filter (fun hb => decide (hb.sprint_id = sid))).isEmpty = false := by
      rw [List.isEmpty_eq_false_iff_exists_mem]
      cases hF : db.habits.filter (fun hb => decide (hb.sprint_id = sid)) with
      | nil => exact absurd hF hne
      | cons a t => exact ⟨a, by simp⟩
    simp only [get_daily_efforts, wrapEndpoint, get_daily_efforts_inner, hem,
      Bool.false_eq_true, if_false]
    rw [foldl_append_eq_map (fun hb : Habit =>
      (⟨hb.name, hb.id,
        match db.effort_logs.find?
          (fun l => decide (l.habit_id = hb.id ∧ l.date = d)) with
        | some e => e.hours
        | none => 0⟩ : DailyEffort))]
    rw [List.nil_append]
    have hf : (fun hb : Habit =>
        (⟨hb.name, hb.id,
          match db.effort_logs.find?
            (fun l => decide (l.habit_id = hb.id ∧ l.date = d)) with
          | some e => e.hours
          | none => 0⟩ : DailyEffort)) =
        (fun hb : Habit =>
          (⟨hb.name, hb.id,
           ((db.effort_logs.find?
              (fun l => decide (l.habit_id = hb.id ∧ l.date = d))).map
              (fun l => l.hours)).getD 0⟩ : DailyEffort)) := by
      funext hb
      cases hfind : db.effort_logs.find?
          (fun l => decide (l.habit_id = hb.id ∧ l.date = d)) <;> simp [hfind]
    rw [hf]

/-- Witness for C7: habit "Read" has 1 hour on day 0 in the scenario
database; the empty database has no habits for sprint 1. -/
theorem C7_daily_efforts_listing_witness :
    get_daily_efforts dbW 1 0 = Except.ok
      ((dbW.habits.filter (fun hb => decide (hb.sprint_id = 1))).map (fun hb =>
        ⟨hb.name, hb.id,
         ((dbW.effort_logs.find?
            (fun l => decide (l.habit_id = hb.id ∧ l.date = 0))).map
            (fun l => l.hours)).getD 0⟩)) ∧
    get_daily_efforts dbE 1 0 =
      Except.error ⟨500, "404: Sprint not found or has no habits"⟩ :=
  ⟨(C7_daily_efforts_listing dbW 1 0).2 (by decide),
   (C7_daily_efforts_listing dbE 1 0).1 (by rfl)⟩

/-! ### Lemmas on sprint creation -/

theorem find?_map_dictUpdate (k : String) (v : Nat) :
    ∀ d : List (String × Nat), d.any (fun p => decide (p.1 = k)) = true →
      (d.map (fun p => if p.1 = k then (k, v) else p)).find?
        (fun p => decide (p.1 = k)) = some (k, v) := by
  intro d
  induction d with
  | nil => intro h; simp at h
  | cons p t ih =>
      intro h
      by_cases hp : p.1 = k
      · simp [List.find?_cons, hp]
      · have h' : t.any (fun p => decide (p.1 = k)) = true := by
          simpa [hp] using h
        simp [List.find?_cons, hp, ih h']

theorem find?_map_dictUpdate_ne (k k' : String) (v : Nat) (hk : ¬ k' = k) :
    ∀ d : List (String × Nat),
      (d.map (fun p => if p.1 = k then (k, v) else p)).find?
        (fun p => decide (p.1 = k')) = d.find? (fun p => decide (p.1 = k')) := by
  intro d
  induction d with
  | nil => rfl
  | cons p t ih =>
      by_cases hp : p.1 = k
      · have hkk : ¬ (k = k') := fun hc => hk hc.symm
        have hpk : ¬ (p.1 = k') := by rw [hp]; exact hkk
        simp [List.find?_cons, hp, hkk, hpk, ih]
      · by_cases hp' : p.1 = k'
        · simp [List.find?_cons, hp, hp', hk]
        · simp [List.find?_cons, hp, hp', ih]

theorem dictGet_dictInsert_self (d : List (String × Nat)) (k : String) (v : Nat) :
    dictGet (dictInsert d k v) k = some v := by
  unfold dictInsert dictGet
  by_cases h : d.any (fun p => decide (p.1 = k)) = true
  · rw [if_pos h, find?_map_dictUpdate k v d h]
    rfl
  · rw [if_neg h, List.find?_append]
    have hnone : d.find? (fun p => decide (p.1 = k)) = none := by
      rw [List.find?_eq_none]
      intro x hx hpx
      exact h (List.any_eq_true.mpr ⟨x, hx, hpx⟩)
    rw [hnone]
    simp

theorem dictGet_dictInsert_ne (d : List (String × Nat)) (k k' : String)
    (v : Nat) (hk : ¬ k' = k) :
    dictGet (dictInsert d k v) k' = dictGet d k' := by
  unfold dictInsert dictGet
  by_cases h : d.any (fun p => decide (p.1 = k)) = true
  · rw [if_pos h, find?_map_dictUpdate_ne k k' v hk d]
  · rw [if_neg h, List.find?_append]
    have hkk : ¬ k = k' := fun hc => hk hc.symm
    have hone : ([(k, v)] : List (String × Nat)).find?
        (fun p => decide (p.1 = k')) = none := by
      simp [List.find?_cons, hkk]
    rw [hone]
    simp

theorem length_habitRows (sid : Nat) :
    ∀ (n : Nat) (hcs : List HabitCreate),
      (habitRows sid n hcs).length = hcs.length := by
  intro n hcs
  induction hcs generalizing n with
  | nil => rfl
  | cons hc t ih => simp [habitRows, ih]

theorem create_fold_spec (sid : Nat) :
    ∀ (hcs : List HabitCreate) (m : List (String × Nat)) (d : DB),
      (hcs.foldl (createStep sid) (m, d)).2.habits =
          d.habits ++ habitRows sid d.next_habit_id hcs ∧
      (hcs.foldl (createStep sid) (m, d)).2.next_habit_id =
          d.next_habit_id + hcs.length ∧
      (hcs.foldl (createStep sid) (m, d)).2.sprints = d.sprints ∧
      (hcs.foldl (createStep sid) (m, d)).2.next_sprint_id = d.next_sprint_id ∧
      (hcs.foldl (createStep sid) (m, d)).2.effort_logs = d.effort_logs ∧
      (∀ name, dictGet (hcs.foldl (createStep sid) (m, d)).1 name =
        match lastOcc name hcs with
        | some j => some (d.next_habit_id + j)
        | none => dictGet m name) := by
  intro hcs
  induction hcs with
  | nil =>
      intro m d
      exact ⟨by simp [habitRows], rfl, rfl, rfl, rfl, fun name => rfl⟩
  | cons hc t ih =>
      intro m d
      rw [List.foldl_cons]
      have hstep : createStep sid (m, d) hc =
          (dictInsert m hc.name d.next_habit_id,
           { d with
             habits := d.habits ++
               [⟨d.next_habit_id, sid, hc.name, hc.weight, hc.target_hours⟩],
             next_habit_id := d.next_habit_id + 1 }) := rfl
      rw [hstep]
      obtain ⟨ih1, ih2, ih3, ih4, ih5, ih6⟩ :=
        ih (dictInsert m hc.name d.next_habit_id)
          { d with
            habits := d.habits ++ [⟨d.next_habit_id, sid, hc.name, hc.weight, hc.target_hours⟩],
            next_habit_id := d.next_habit_id + 1 }
      refine ⟨?_, ?_, ih3, ih4, ih5, ?_⟩
      · rw [ih1]
        simp [habitRows, List.append_assoc]
      · rw [ih2]
        simp [List.length_cons]
        omega
      · intro name
        rw [ih6 name]
        cases hlo : lastOcc name t with
        | some j =>
            show some (d.next_habit_id + 1 + j) = _
            have : lastOcc name (hc :: t) = some (j + 1) := by
              simp [lastOcc, hlo]
            rw [this]
            have : d.next_habit_id + 1 + j = d.next_habit_id + (j + 1) := by omega
            rw [this]
        | none =>
            by_cases hn : hc.name = name
            · have : lastOcc name (hc :: t) = some 0 := by
                simp [lastOcc, hlo, hn]
              rw [this]
              show dictGet (dictInsert m hc.name d.next_habit_id) name = _
              rw [← hn, dictGet_dictInsert_self]
              simp
            · have : lastOcc name (hc :: t) = none := by
                simp [lastOcc, hlo, hn]
              rw [this]
              show dictGet (dictInsert m hc.name d.next_habit_id) name = dictGet m name
              exact dictGet_dictInsert_ne m hc.name name d.next_habit_id
                (fun hc2 => hn hc2.symm)

/-- C9: sprint creation persists one sprint row and one habit row per
submitted habit specification -- with no validation of weights, dates or
target hours (the statement holds for every request) -- and returns the
new sprint's identity together with a name-to-identity mapping in which
the id of each name is that of its last occurrence in the input (later
duplicates overwrite earlier ones in the mapping, while both habit rows
are persisted). -/
theorem C9_create_sprint_rows (db : DB) (s : SprintCreate) :
    (create_sprint db s).1.sprint_id = db.next_sprint_id ∧
    (create_sprint db s).2.sprints =
      db.sprints ++ [⟨db.next_sprint_id, s.name, s.start_date, s.end_date, 0⟩] ∧
    (create_sprint db s).2.habits =
      db.habits ++ habitRows db.next_sprint_id db.next_habit_id s.habits ∧
    (habitRows db.next_sprint_id db.next_habit_id s.habits).length =
      s.habits.length ∧
    (∀ name, dictGet (create_sprint db s).1.habit_ids name =
      (lastOcc name s.habits).map (fun j => db.next_habit_id + j)) := by
  obtain ⟨h1, h2, h3, h4, h5, h6⟩ :=
    create_fold_spec db.next_sprint_id s.habits ([] : List (String × Nat))
      { db with
        sprints := db.sprints ++
          [⟨db.next_sprint_id, s.name, s.start_date, s.end_date, 0⟩],
        next_sprint_id := db.next_sprint_id + 1 }
  refine ⟨rfl, ?_, ?_, length_habitRows _ _ _, ?_⟩
  · exact h3
  · exact h1
  · intro name
    have h6n := h6 name
    cases hlo : lastOcc name s.habits with
    | some j => rw [hlo] at h6n; exact h6n
    | none => rw [hlo] at h6n; exact h6n

/-- Witness for C9: a request with two habits both named "A" against the
empty database. -/
theorem C9_create_sprint_rows_witness :
    (create_sprint dbE screate).1.sprint_id = dbE.next_sprint_id ∧
    (create_sprint dbE screate).2.sprints =
      dbE.sprints ++
        [⟨dbE.next_sprint_id, screate.name, screate.start_date, screate.end_date, 0⟩] ∧
    (create_sprint dbE screate).2.habits =
      dbE.habits ++ habitRows dbE.next_sprint_id dbE.next_habit_id screate.habits ∧
    (habitRows dbE.next_sprint_id dbE.next_habit_id screate.habits).length =
      screate.habits.length ∧
    (∀ name, dictGet (create_sprint dbE screate).1.habit_ids name =
      (lastOcc name screate.habits).map (fun j => dbE.next_habit_id + j)) :=
  C9_create_sprint_rows dbE screate

/-- C10: a sprint that exists but owns no habits is retrieved
successfully, with an empty habits list and an all-null days array of
`(end_date - start_date).days + 1` slots, while the daily-effort listing
for the very same identity fails with the wrapped NotFound response: the
two read operations disagree on whether a habit-less sprint is an error. -/
theorem C10_empty_sprint_disagreement (db : DB) (sid : Nat) (sprint : Sprint)
    (hfind : db.sprints.find? (fun s => s.id = sid) = some sprint)
    (hnohab : db.habits.filter (fun h => decide (h.sprint_id = sid)) = [])
    (hse : sprint.start_date ≤ sprint.end_date) :
    get_sprint db sid = Except.ok
      ⟨sprint.id, sprint.name, sprint.start_date, sprint.end_date, [],
       List.replicate (daysCount sprint).toNat none⟩ ∧
    ((List.replicate (daysCount sprint).toNat (none : Option ℚ)).length : Int) =
      (sprint.end_date - sprint.start_date) + 1 ∧
    (∀ d, get_daily_efforts db sid d =
      Except.error ⟨500, "404: Sprint not found or has no habits"⟩) := by
  have hjoin : joinEfforts db sid = [] := by
    apply joinEfforts_eq_nil
    intro hb hmem heq
    have hbmem : hb ∈ db.habits.filter (fun h => decide (h.sprint_id = sid)) :=
      List.mem_filter.mpr ⟨hmem, by simp [heq]⟩
    rw [hnohab] at hbmem
    exact absurd hbmem (List.not_mem_nil hb)
  refine ⟨?_, ?_, fun d => get_daily_efforts_noHabits db sid d hnohab⟩
  · have hok := get_sprint_ok db sid sprint hfind (by
      rw [hjoin]; intro e he; exact absurd he (List.not_mem_nil e))
    rw [hjoin, hnohab] at hok
    simpa using hok
  · rw [List.length_replicate]
    unfold daysCount
    omega

/-- Witness for C10 on the habit-less sprint database. -/
theorem C10_empty_sprint_disagreement_witness :
    get_sprint dbN 5 = Except.ok
      ⟨sprintN.id, sprintN.name, sprintN.start_date, sprintN.end_date, [],
       List.replicate (daysCount sprintN).toNat none⟩ ∧
    ((List.replicate (daysCount sprintN).toNat (none : Option ℚ)).length : Int) =
      (sprintN.end_date - sprintN.start_date) + 1 ∧
    (∀ d, get_daily_efforts dbN 5 d =
      Except.error ⟨500, "404: Sprint not found or has no habits"⟩) :=
  C10_empty_sprint_disagreement dbN 5 sprintN (by rfl) (by rfl) (by decide)

end HabitTracker
